import Mathlib

/-!
Shallow embedding of the user/post store in `src/api.js` (and, for the
arithmetic claim, of the calculator described in the specification, whose
source file is not part of `src/`).

Modelling conventions:
* The two module-level arrays `users` and `posts` become the two fields of
  a `State` record; every mutating operation takes a `State` and returns the
  new `State` together with its JavaScript return value (or thrown error,
  as `Except String`).  Read-only operations (`searchPosts`, `getUserStats`)
  also thread the state unchanged so that atomicity is expressible.
* `new Date().toISOString()` is nondeterministic, so creation operations
  take the current timestamp `now : String` as an explicit argument.
* JavaScript string truthiness: for a string `x`, `!x` holds exactly when
  `x` is the empty string, so guards like `!name || name.length < 2` become
  `name = "" ∨ name.length < 2`.
* `Array.prototype.findIndex` followed by `splice(index, 1)` (deleteUser)
  is embedded as `removeFirst`; `Array.prototype.find` followed by in-place
  mutation of the found element (updateUser, likePost) is embedded as
  `updateFirst`.  Both remove/rewrite exactly the first element satisfying
  the predicate, as the JavaScript does.
* In `deleteUser`, the cascade loop `posts.filter(...).forEach(post =>
  posts.splice(posts.indexOf(post), 1))` removes, by reference identity,
  exactly the posts whose `userId` matches; its denotation on values is
  `posts.filter (fun p => p.userId ≠ userId)`.
* JavaScript numbers used as identifiers and counters are embedded as `Nat`
  (ids are generated as `length + 1`, likes start at 0 and only increment);
  the option `limit` is an `Int` since the code tests `limit > 0`.
* `String.prototype.includes` becomes `strIncludes` (substring containment
  over the character list); `toLowerCase` becomes `String.toLower`.
-/

namespace Api

/-- A stored user record (`users` array elements in `src/api.js`). -/
structure User where
  id : Nat
  name : String
  email : String
  password : String
  createdAt : String
  isActive : Bool
deriving DecidableEq, Repr

/-- A stored post record (`posts` array elements in `src/api.js`). -/
structure Post where
  id : Nat
  userId : Nat
  title : String
  content : String
  tags : List String
  createdAt : String
  likes : Nat
  published : Bool
deriving DecidableEq, Repr

/-- The module-level mutable state: the `users` and `posts` arrays. -/
structure State where
  users : List User
  posts : List Post
deriving DecidableEq, Repr

/-- The redacted view returned by `getUserById` and `createUser`
(id, name, email, createdAt — no password field). -/
structure UserView where
  id : Nat
  name : String
  email : String
  createdAt : String
deriving DecidableEq, Repr

/-- The view returned by `updateUser` (id, name, email, isActive). -/
structure UserUpdateView where
  id : Nat
  name : String
  email : String
  isActive : Bool
deriving DecidableEq, Repr

/-- The view returned by `likePost` and used for `mostPopularPost`. -/
structure PostLikeView where
  id : Nat
  title : String
  likes : Nat
deriving DecidableEq, Repr

/-- The statistics object returned by `getUserStats`. -/
structure Stats where
  userId : Nat
  userName : String
  totalPosts : Nat
  totalLikes : Nat
  averageLikesPerPost : ℚ
  mostPopularPost : Option PostLikeView
deriving DecidableEq, Repr

/-- The partial-update argument of `updateUser`: each field may be absent.
`isActive` is applied only when it is an actual boolean, which the `Option
Bool` models. -/
structure UserUpdates where
  name : Option String := none
  email : Option String := none
  isActive : Option Bool := none
deriving DecidableEq, Repr

/-- The options argument of `getUserPosts`. -/
structure PostOptions where
  published : Option Bool := none
  tag : Option String := none
  limit : Option Int := none
deriving DecidableEq, Repr

/-- `leadMatch sub s` holds when `sub` occurs at the very start of `s`. -/
def leadMatch : List Char → List Char → Bool
  | [], _ => true
  | _ :: _, [] => false
  | c :: cs, d :: ds => c == d && leadMatch cs ds

/-- `containsSeq sub s` holds when `sub` occurs contiguously in `s`. -/
def containsSeq (sub : List Char) : List Char → Bool
  | [] => leadMatch sub []
  | c :: cs => leadMatch sub (c :: cs) || containsSeq sub cs

/-- `String.prototype.includes`: substring containment. -/
def strIncludes (s sub : String) : Bool :=
  containsSeq sub.toList s.toList

/-- Replace the first element satisfying `p` by its image under `f`
(models `Array.prototype.find` + in-place mutation of the found record). -/
def updateFirst {α : Type} (p : α → Bool) (f : α → α) : List α → List α
  | [] => []
  | x :: xs => if p x then f x :: xs else x :: updateFirst p f xs

/-- Remove the first element satisfying `p`; `none` when no element matches
(models `findIndex` returning `-1` vs. an index, then `splice(index, 1)`). -/
def removeFirst {α : Type} (p : α → Bool) : List α → Option (List α)
  | [] => none
  | x :: xs => if p x then some xs else (removeFirst p xs).map (x :: ·)

/-- `hashPassword` helper: `'hashed_' + password`. -/
def hashPassword (password : String) : String :=
  "hashed_" ++ password

/-- `getUserById(userId)`: linear search, redacted view or `null`. -/
def getUserById (s : State) (userId : Nat) : Option UserView :=
  match s.users.find? (fun u => u.id == userId) with
  | none => none
  | some u => some { id := u.id, name := u.name, email := u.email, createdAt := u.createdAt }

/-- `createUser(name, email, password)`: validation, then append. -/
def createUser (s : State) (name email password : String) (now : String) :
    Except String UserView × State :=
  if name = "" ∨ name.length < 2 then
    (.error "Name must be at least 2 characters", s)
  else if email = "" ∨ strIncludes email "@" = false then
    (.error "Valid email required", s)
  else if password = "" ∨ password.length < 8 then
    (.error "Password must be at least 8 characters", s)
  else
    let newUser : User :=
      { id := s.users.length + 1, name := name, email := email,
        password := hashPassword password, createdAt := now, isActive := true }
    (.ok { id := newUser.id, name := newUser.name, email := newUser.email,
           createdAt := newUser.createdAt },
     { s with users := s.users ++ [newUser] })

/-- In-place field updates of `updateUser` on the found user record
(`if (updates.name) …`, `if (updates.email) …`,
`if (typeof updates.isActive === 'boolean') …`). -/
def applyUpdates (updates : UserUpdates) (u : User) : User :=
  let u1 := match updates.name with
    | some n => if n = "" then u else { u with name := n }
    | none => u
  let u2 := match updates.email with
    | some e => if e = "" then u1 else { u1 with email := e }
    | none => u1
  match updates.isActive with
  | some b => { u2 with isActive := b }
  | none => u2

/-- `updateUser(userId, updates)`: partial update of the first matching
user, `null` sentinel when absent. -/
def updateUser (s : State) (userId : Nat) (updates : UserUpdates) :
    Option UserUpdateView × State :=
  match s.users.find? (fun u => u.id == userId) with
  | none => (none, s)
  | some u =>
    let u' := applyUpdates updates u
    (some { id := u'.id, name := u'.name, email := u'.email, isActive := u'.isActive },
     { s with users := updateFirst (fun v => v.id == userId) (applyUpdates updates) s.users })

/-- `deleteUser(userId)`: remove the first matching user and cascade the
deletion to all posts with that owner id; success boolean. -/
def deleteUser (s : State) (userId : Nat) : Bool × State :=
  match removeFirst (fun u => u.id == userId) s.users with
  | none => (false, s)
  | some users' =>
    (true, { users := users', posts := s.posts.filter (fun p => !(p.userId == userId)) })

/-- `createPost(userId, title, content, tags)`: requires an existing user,
validates title and content, then appends. -/
def createPost (s : State) (userId : Nat) (title content : String)
    (tags : List String) (now : String) : Except String Post × State :=
  match s.users.find? (fun u => u.id == userId) with
  | none => (.error "User not found", s)
  | some _ =>
    if title = "" ∨ title.length > 200 then
      (.error "Title required and must be under 200 characters", s)
    else if content = "" ∨ content.length > 5000 then
      (.error "Content required and must be under 5000 characters", s)
    else
      let newPost : Post :=
        { id := s.posts.length + 1, userId := userId, title := title, content := content,
          tags := tags, createdAt := now, likes := 0, published := true }
      (.ok newPost, { s with posts := s.posts ++ [newPost] })

/-- `getUserPosts(userId, options)`: owner filter, then the optional
published / tag / limit filters, in the order of the source. -/
def getUserPosts (s : State) (userId : Nat) (options : PostOptions) : List Post :=
  let userPosts := s.posts.filter (fun p => p.userId == userId)
  let userPosts := match options.published with
    | some b => userPosts.filter (fun p => p.published == b)
    | none => userPosts
  let userPosts := match options.tag with
    | some t => if t = "" then userPosts else userPosts.filter (fun p => p.tags.contains t)
    | none => userPosts
  match options.limit with
  | some n => if n > 0 then userPosts.take n.toNat else userPosts
  | none => userPosts

/-- The search predicate of `searchPosts`: case-insensitive substring match
on title, content, or any tag. -/
def postMatches (lowerKeyword : String) (p : Post) : Bool :=
  strIncludes p.title.toLower lowerKeyword ||
  strIncludes p.content.toLower lowerKeyword ||
  p.tags.any (fun tag => strIncludes tag.toLower lowerKeyword)

/-- `searchPosts(keyword, maxResults)`: keyword length guard, filter in
insertion order, truncate with `slice(0, maxResults)`. -/
def searchPosts (s : State) (keyword : String) (maxResults : Nat) :
    Except String (List Post) × State :=
  if keyword = "" ∨ keyword.length < 3 then
    (.error "Search keyword must be at least 3 characters", s)
  else
    let lowerKeyword := keyword.toLower
    let results := s.posts.filter (postMatches lowerKeyword)
    (.ok (results.take maxResults), s)

/-- `likePost(postId)`: increment the like counter of the first matching
post; `null` sentinel when absent. -/
def likePost (s : State) (postId : Nat) : Option PostLikeView × State :=
  match s.posts.find? (fun p => p.id == postId) with
  | none => (none, s)
  | some p =>
    (some { id := p.id, title := p.title, likes := p.likes + 1 },
     { s with posts := updateFirst (fun q => q.id == postId)
                         (fun q => { q with likes := q.likes + 1 }) s.posts })

/-- One step of the `mostPopular` reduce:
`(max, post) => post.likes > (max?.likes || 0) ? post : max`.
For `likes : Nat`, `max?.likes || 0` is `0` when `max` is `null` and
`max.likes` otherwise (`0 || 0 = 0`). -/
def mpStep (acc : Option Post) (post : Post) : Option Post :=
  if post.likes > (match acc with | some m => m.likes | none => 0) then some post else acc

/-- The `mostPopular` reduce of `getUserStats`, with initial value `null`. -/
def mostPopular (l : List Post) : Option Post :=
  l.foldl mpStep none

/-- `Number.prototype.toFixed(2)` on a nonnegative value: rounding to two
decimal places, halves away from zero. -/
def roundTo2 (q : ℚ) : ℚ :=
  ((q * 100 + 1 / 2).floor : ℚ) / 100

/-- `getUserStats(userId)`: requires an existing user, aggregates the
user's posts. -/
def getUserStats (s : State) (userId : Nat) : Except String Stats × State :=
  match s.users.find? (fun u => u.id == userId) with
  | none => (.error "User not found", s)
  | some user =>
    let userPosts := s.posts.filter (fun p => p.userId == userId)
    let totalLikes := userPosts.foldl (fun sum post => sum + post.likes) 0
    let mostPop := mostPopular userPosts
    (.ok { userId := userId, userName := user.name,
           totalPosts := userPosts.length,
           totalLikes := totalLikes,
           averageLikesPerPost :=
             if userPosts.length > 0 then roundTo2 ((totalLikes : ℚ) / (userPosts.length : ℚ))
             else 0,
           mostPopularPost := mostPop.map (fun p => { id := p.id, title := p.title, likes := p.likes }) },
     s)

/-- Modelled from the spec: the calculator module (add, multiply, divide of
§4.1) is not present under `src/`; numbers are modelled as exact rationals.
`divide(a, b)` fails with a DivisionByZero-style error when `b == 0` and
otherwise returns the quotient `a / b`. -/
def divide (a b : ℚ) : Except String ℚ :=
  if b = 0 then .error "Division by zero" else .ok (a / b)

/-- Modelled from the spec: `add(a, b) -> a + b`, a total function. -/
def add (a b : ℚ) : ℚ := a + b

/-- Modelled from the spec: `multiply(a, b) -> a * b`, a total function. -/
def multiply (a b : ℚ) : ℚ := a * b

/-! ### Helper lemmas about the list operations used by the store -/

theorem find?_some_updateFirst {α : Type} (p : α → Bool) (f : α → α) (l : List α) (x : α)
    (h : l.find? p = some x) :
    ∃ l₁ l₂, l = l₁ ++ x :: l₂ ∧ (∀ y ∈ l₁, ¬ p y) ∧ p x ∧
      updateFirst p f l = l₁ ++ f x :: l₂ := by
  induction l with
  | nil => simp [List.find?] at h
  | cons a l ih =>
    by_cases hpa : p a
    · refine ⟨[], l, ?_⟩
      simp [List.find?, hpa] at h
      simp [updateFirst, hpa, ← h]
    · simp [List.find?, hpa] at h
      obtain ⟨l₁, l₂, hdec, hnone, hx, hupd⟩ := ih h
      refine ⟨a :: l₁, l₂, by simp [hdec], ?_, hx, by simp [updateFirst, hpa, hupd]⟩
      intro y hy
      rcases List.mem_cons.mp hy with rfl | hy
      · exact hpa
      · exact hnone y hy

theorem removeFirst_eq_none_iff {α : Type} (p : α → Bool) (l : List α) :
    removeFirst p l = none ↔ ∀ x ∈ l, ¬ p x := by
  induction l with
  | nil => simp [removeFirst]
  | cons a l ih =>
    by_cases hpa : p a
    · simp [removeFirst, hpa]
    · simp [removeFirst, hpa, ih]

theorem removeFirst_some_decomp {α : Type} (p : α → Bool) (l l' : List α)
    (h : removeFirst p l = some l') :
    ∃ l₁ x l₂, l = l₁ ++ x :: l₂ ∧ (∀ y ∈ l₁, ¬ p y) ∧ p x ∧ l' = l₁ ++ l₂ := by
  induction l generalizing l' with
  | nil => simp [removeFirst] at h
  | cons a l ih =>
    by_cases hpa : p a
    · simp [removeFirst, hpa] at h
      exact ⟨[], a, l, by simp, by simp, hpa, by simp [h]⟩
    · simp [removeFirst, hpa] at h
      obtain ⟨l'', hl'', rfl⟩ := h
      obtain ⟨l₁, x, l₂, hdec, hnone, hx, hrest⟩ := ih _ hl''
      refine ⟨a :: l₁, x, l₂, by simp [hdec], ?_, hx, by simp [hrest]⟩
      intro y hy
      rcases List.mem_cons.mp hy with rfl | hy
      · exact hpa
      · exact hnone y hy

/-- The accumulator's like count as seen by `mpStep` (`max?.likes || 0`). -/
def accLikes : Option Post → Nat
  | some m => m.likes
  | none => 0

/-- Full characterisation of the `mostPopular` fold, generalised over the
accumulator: either no element ever beats the accumulator, or the result is
the first element that attains the maximum like count. -/
theorem foldl_mpStep_spec (l : List Post) : ∀ acc : Option Post,
    (l.foldl mpStep acc = acc ∧ ∀ p ∈ l, p.likes ≤ accLikes acc) ∨
    (∃ l₁ m l₂, l = l₁ ++ m :: l₂ ∧ l.foldl mpStep acc = some m ∧
      accLikes acc < m.likes ∧ (∀ p ∈ l, p.likes ≤ m.likes) ∧
      (∀ p ∈ l₁, p.likes < m.likes)) := by
  induction l with
  | nil => intro acc; left; simp
  | cons a l ih =>
    intro acc
    by_cases ha : accLikes acc < a.likes
    · have hstep : mpStep acc a = some a := by
        cases acc <;> simp_all [mpStep, accLikes]
      rcases ih (some a) with ⟨hfold, hall⟩ | ⟨l₁, m, l₂, hdec, hfold, hlt, hall, hfirst⟩
      · right
        refine ⟨[], a, l, by simp, ?_, ha, ?_, by simp⟩
        · simpa [List.foldl_cons, hstep] using hfold
        · intro p hp
          rcases List.mem_cons.mp hp with rfl | hp
          · exact le_refl _
          · exact hall p hp
      · right
        refine ⟨a :: l₁, m, l₂, by simp [hdec], ?_, ?_, ?_, ?_⟩
        · simpa [List.foldl_cons, hstep] using hfold
        · exact lt_trans ha hlt
        · intro p hp
          rcases List.mem_cons.mp hp with rfl | hp
          · exact le_of_lt hlt
          · exact hall p (hdec ▸ hp)
        · intro p hp
          rcases List.mem_cons.mp hp with rfl | hp
          · exact hlt
          · exact hfirst p hp
    · have hstep : mpStep acc a = acc := by
        cases acc <;> simp_all [mpStep, accLikes]
      rcases ih acc with ⟨hfold, hall⟩ | ⟨l₁, m, l₂, hdec, hfold, hlt, hall, hfirst⟩
      · left
        refine ⟨by simpa [List.foldl_cons, hstep] using hfold, ?_⟩
        intro p hp
        rcases List.mem_cons.mp hp with rfl | hp
        · exact Nat.le_of_not_lt ha
        · exact hall p hp
      · right
        refine ⟨a :: l₁, m, l₂, by simp [hdec], ?_, hlt, ?_, ?_⟩
        · simpa [List.foldl_cons, hstep] using hfold
        · intro p hp
          rcases List.mem_cons.mp hp with rfl | hp
          · exact le_of_lt (lt_of_le_of_lt (Nat.le_of_not_lt ha) hlt)
          · exact hall p (hdec ▸ hp)
        · intro p hp
          rcases List.mem_cons.mp hp with rfl | hp
          · exact lt_of_le_of_lt (Nat.le_of_not_lt ha) hlt
          · exact hfirst p hp

theorem mostPopular_eq_none (l : List Post) (h : mostPopular l = none) :
    ∀ p ∈ l, p.likes = 0 := by
  rcases foldl_mpStep_spec l none with ⟨_, hall⟩ | ⟨l₁, m, l₂, _, hfold, _, _, _⟩
  · intro p hp
    exact Nat.le_zero.mp (hall p hp)
  · rw [mostPopular] at h
    rw [h] at hfold
    exact absurd hfold (by simp)

theorem mostPopular_eq_some (l : List Post) (m : Post) (h : mostPopular l = some m) :
    0 < m.likes ∧ ∃ l₁ l₂, l = l₁ ++ m :: l₂ ∧ (∀ p ∈ l, p.likes ≤ m.likes) ∧
      ∀ p ∈ l₁, p.likes < m.likes := by
  rcases foldl_mpStep_spec l none with ⟨hfold, _⟩ | ⟨l₁, m', l₂, hdec, hfold, hlt, hall, hfirst⟩
  · rw [mostPopular, hfold] at h
    exact absurd h (by simp)
  · rw [mostPopular, hfold] at h
    obtain rfl : m' = m := by simpa using h
    exact ⟨hlt, l₁, l₂, hdec, hall, hfirst⟩

/-- If some element satisfies `p`, `find?` returns an element. -/
theorem find?_isSome_of_exists {α : Type} (p : α → Bool) (l : List α)
    (h : ∃ x ∈ l, p x) : ∃ y, l.find? p = some y := by
  cases hf : l.find? p with
  | none =>
    rw [List.find?_eq_none] at hf
    obtain ⟨x, hx, hpx⟩ := h
    exact absurd hpx (hf x hx)
  | some y => exact ⟨y, rfl⟩

/-- `applyUpdates` never changes the id. -/
theorem applyUpdates_id (updates : UserUpdates) (u : User) :
    (applyUpdates updates u).id = u.id := by
  rcases updates with ⟨n, e, a⟩
  cases n <;> cases e <;> cases a <;> simp [applyUpdates] <;> split_ifs <;> rfl

/-- Elements of `updateFirst p f l` come from `l`, possibly through `f`. -/
theorem mem_updateFirst {α : Type} (p : α → Bool) (f : α → α) (l : List α) (x : α)
    (h : x ∈ updateFirst p f l) : x ∈ l ∨ ∃ y ∈ l, x = f y := by
  induction l with
  | nil =>
    rw [updateFirst] at h
    exact Or.inl h
  | cons a l ih =>
    rw [updateFirst] at h
    by_cases hpa : p a
    · rw [if_pos hpa] at h
      rcases List.mem_cons.mp h with rfl | h
      · exact Or.inr ⟨a, List.mem_cons_self a l, rfl⟩
      · exact Or.inl (List.mem_cons_of_mem _ h)
    · rw [if_neg hpa] at h
      rcases List.mem_cons.mp h with rfl | h
      · exact Or.inl (List.mem_cons_self _ _)
      · rcases ih h with h' | ⟨y, hy, hxy⟩
        · exact Or.inl (List.mem_cons_of_mem _ h')
        · exact Or.inr ⟨y, List.mem_cons_of_mem _ hy, hxy⟩

/-- An id present in `l` is still present after `updateFirst` with
`applyUpdates`, which preserves ids. -/
theorem exists_id_updateFirst (updates : UserUpdates) (userId pid : Nat) (l : List User)
    (h : ∃ u ∈ l, u.id = pid) :
    ∃ u ∈ updateFirst (fun v => v.id == userId) (applyUpdates updates) l, u.id = pid := by
  induction l with
  | nil =>
    obtain ⟨u, hu, -⟩ := h
    exact absurd hu (List.not_mem_nil u)
  | cons a l ih =>
    obtain ⟨u, hu, hid⟩ := h
    rw [updateFirst]
    by_cases hpa : (a.id == userId) = true
    · rw [if_pos hpa]
      rcases List.mem_cons.mp hu with rfl | hu
      · exact ⟨applyUpdates updates u, List.mem_cons_self _ _,
          (applyUpdates_id updates u).trans hid⟩
      · exact ⟨u, List.mem_cons_of_mem _ hu, hid⟩
    · rw [if_neg hpa]
      rcases List.mem_cons.mp hu with rfl | hu
      · exact ⟨u, List.mem_cons_self _ _, hid⟩
      · obtain ⟨v, hv, hvid⟩ := ih ⟨u, hu, hid⟩
        exact ⟨v, List.mem_cons_of_mem _ hv, hvid⟩

/-- States reachable from the empty store through the API operations. -/
inductive Reachable : State → Prop where
  | init : Reachable ⟨[], []⟩
  | cuser (s : State) (name email password now : String) :
      Reachable s → Reachable (createUser s name email password now).2
  | uuser (s : State) (userId : Nat) (updates : UserUpdates) :
      Reachable s → Reachable (updateUser s userId updates).2
  | duser (s : State) (userId : Nat) :
      Reachable s → Reachable (deleteUser s userId).2
  | cpost (s : State) (userId : Nat) (title content : String)
      (tags : List String) (now : String) :
      Reachable s → Reachable (createPost s userId title content tags now).2
  | lpost (s : State) (postId : Nat) :
      Reachable s → Reachable (likePost s postId).2

/-- Ownership invariant: in every reachable state, each stored post's
owner id belongs to some stored user.  (`createPost` only accepts existing
owners and `deleteUser` cascades, so the invariant is preserved.) -/
theorem reachable_owner_invariant (s : State) (h : Reachable s) :
    ∀ p ∈ s.posts, ∃ u ∈ s.users, u.id = p.userId := by
  induction h with
  | init =>
    intro p hp
    exact absurd hp (List.not_mem_nil p)
  | cuser s name email password now hs ih =>
    intro p hp
    rw [createUser] at hp ⊢
    split_ifs at hp ⊢ <;>
      · dsimp only at hp ⊢
        obtain ⟨u, hu, hid⟩ := ih p hp
        exact ⟨u, by simp [hu], hid⟩
  | uuser s userId updates hs ih =>
    intro p hp
    rw [updateUser] at hp ⊢
    cases hf : s.users.find? (fun u => u.id == userId) with
    | none =>
      rw [hf] at hp
      dsimp only at hp ⊢
      exact ih p hp
    | some u₀ =>
      rw [hf] at hp
      dsimp only at hp ⊢
      exact exists_id_updateFirst updates userId p.userId s.users (ih p hp)
  | duser s userId hs ih =>
    intro p hp
    rw [deleteUser] at hp ⊢
    cases hrem : removeFirst (fun u => u.id == userId) s.users with
    | none =>
      rw [hrem] at hp
      dsimp only at hp ⊢
      exact ih p hp
    | some users' =>
      rw [hrem] at hp
      dsimp only at hp ⊢
      rw [List.mem_filter] at hp
      obtain ⟨hp, hne⟩ := hp
      obtain ⟨u, hu, hid⟩ := ih p hp
      obtain ⟨l₁, x, l₂, hdec, hnone, hx, rfl⟩ := removeFirst_some_decomp _ _ _ hrem
      rw [hdec] at hu
      have hpne : p.userId ≠ userId := by simpa using hne
      have hxid : x.id = userId := by simpa using hx
      rcases List.mem_append.mp hu with h₁ | h₂
      · exact ⟨u, List.mem_append_left _ h₁, hid⟩
      · rcases List.mem_cons.mp h₂ with rfl | h₂
        · exact absurd (hid.symm.trans hxid) hpne
        · exact ⟨u, List.mem_append_right _ h₂, hid⟩
  | cpost s userId title content tags now hs ih =>
    intro p hp
    rw [createPost] at hp ⊢
    cases hf : s.users.find? (fun u => u.id == userId) with
    | none =>
      rw [hf] at hp
      dsimp only at hp ⊢
      exact ih p hp
    | some u₀ =>
      rw [hf] at hp
      dsimp only at hp ⊢
      split_ifs at hp ⊢
      · exact ih p hp
      · exact ih p hp
      · rcases List.mem_append.mp hp with hp | hp
        · exact ih p hp
        · rcases List.mem_singleton.mp hp with rfl
          have hbeq := List.find?_some hf
          exact ⟨u₀, List.mem_of_find?_eq_some hf, by simpa using hbeq⟩
  | lpost s postId hs ih =>
    intro p hp
    rw [likePost] at hp ⊢
    cases hf : s.posts.find? (fun q => q.id == postId) with
    | none =>
      rw [hf] at hp
      dsimp only at hp ⊢
      exact ih p hp
    | some q₀ =>
      rw [hf] at hp
      dsimp only at hp ⊢
      rcases mem_updateFirst _ _ _ _ hp with hp | ⟨q, hq, rfl⟩
      · exact ih p hp
      · obtain ⟨u, hu, hid⟩ := ih q hq
        exact ⟨u, hu, by simpa using hid⟩

/-! ### Concrete states built through the API, used as witnesses -/

/-- Empty initial state: `users = []`, `posts = []`. -/
def state0 : State := ⟨[], []⟩

/-- State after `createUser("Al", "a@b.com", "password1")`. -/
def state1 : State := (createUser state0 "Al" "a@b.com" "password1" "t0").2

/-- State after additionally `createPost(1, "Hi", "World", ["news"])`. -/
def state2 : State := (createPost state1 1 "Hi" "World" ["news"] "t1").2

/-- State after additionally `likePost(1)`. -/
def state3 : State := (likePost state2 1).2

/-! ### Claim theorems -/

/-- C9: `divide(a, 0)` always fails with a division-by-zero error, and for
`b ≠ 0`, `divide(a, b)` returns the quotient `a / b`. -/
theorem divide_spec :
    (∀ a : ℚ, divide a 0 = .error "Division by zero") ∧
    (∀ a b : ℚ, b ≠ 0 → divide a b = .ok (a / b)) := by
  constructor
  · intro a; simp [divide]
  · intro a b hb; simp [divide, hb]

theorem divide_spec_witness :
    divide 1 0 = .error "Division by zero" ∧ divide 1 2 = .ok (1 / 2) :=
  ⟨divide_spec.1 1, divide_spec.2 1 2 (by norm_num)⟩

/-- C3: `createUser` throws the validation error naming the violated rule
when the name is shorter than 2 characters, the email does not contain "@",
or the password is shorter than 8 characters (checked in that order);
otherwise it appends a new user and returns the redacted view (a
`UserView`, which has no password field). -/
theorem createUser_spec (s : State) (name email password now : String) :
    (name.length < 2 →
      createUser s name email password now =
        (.error "Name must be at least 2 characters", s)) ∧
    (2 ≤ name.length → strIncludes email "@" = false →
      createUser s name email password now = (.error "Valid email required", s)) ∧
    (2 ≤ name.length → strIncludes email "@" = true → password.length < 8 →
      createUser s name email password now =
        (.error "Password must be at least 8 characters", s)) ∧
    (2 ≤ name.length → strIncludes email "@" = true → 8 ≤ password.length →
      createUser s name email password now =
        (.ok { id := s.users.length + 1, name := name, email := email, createdAt := now },
         { s with users := s.users ++
            [{ id := s.users.length + 1, name := name, email := email,
               password := hashPassword password, createdAt := now, isActive := true }] })) := by
  have hemp : ∀ t : String, t = "" → t.length = 0 := by
    intro t ht; rw [ht]; rfl
  have hat : strIncludes "" "@" = false := rfl
  refine ⟨?_, ?_, ?_, ?_⟩
  · intro h
    rw [createUser, if_pos (Or.inr h)]
  · intro hn he
    rw [createUser, if_neg ?_, if_pos (Or.inr he)]
    rintro (h | h)
    · rw [hemp name h] at hn; omega
    · omega
  · intro hn he hp
    rw [createUser, if_neg ?_, if_neg ?_, if_pos (Or.inr hp)]
    · rintro (h | h)
      · rw [h, hat] at he; cases he
      · rw [h] at he; cases he
    · rintro (h | h)
      · rw [hemp name h] at hn; omega
      · omega
  · intro hn he hp
    rw [createUser, if_neg ?_, if_neg ?_, if_neg ?_]
    · rintro (h | h)
      · rw [hemp password h] at hp; omega
      · omega
    · rintro (h | h)
      · rw [h, hat] at he; cases he
      · rw [h] at he; cases he
    · rintro (h | h)
      · rw [hemp name h] at hn; omega
      · omega

theorem createUser_spec_witness :
    createUser state0 "A" "a@b.com" "password1" "t0" =
      (.error "Name must be at least 2 characters", state0) ∧
    createUser state0 "Al" "ab.com" "password1" "t0" =
      (.error "Valid email required", state0) ∧
    createUser state0 "Al" "a@b.com" "pw" "t0" =
      (.error "Password must be at least 8 characters", state0) ∧
    createUser state0 "Al" "a@b.com" "password1" "t0" =
      (.ok { id := 1, name := "Al", email := "a@b.com", createdAt := "t0" },
       { state0 with users := state0.users ++
          [{ id := 1, name := "Al", email := "a@b.com",
             password := hashPassword "password1", createdAt := "t0", isActive := true }] }) :=
  ⟨(createUser_spec state0 "A" "a@b.com" "password1" "t0").1 (by decide),
   (createUser_spec state0 "Al" "ab.com" "password1" "t0").2.1 (by decide) (by decide),
   (createUser_spec state0 "Al" "a@b.com" "pw" "t0").2.2.1 (by decide) (by decide) (by decide),
   (createUser_spec state0 "Al" "a@b.com" "password1" "t0").2.2.2
     (by decide) (by decide) (by decide)⟩

/-- C4: `createPost` throws "User not found" when no user with `userId`
exists; with an existing user it throws on an absent or over-long title,
then on absent or over-long content; otherwise it appends a new post with
`likes = 0` and `published = true` and returns it. -/
theorem createPost_spec (s : State) (userId : Nat) (title content : String)
    (tags : List String) (now : String) :
    ((∀ u ∈ s.users, u.id ≠ userId) →
      createPost s userId title content tags now = (.error "User not found", s)) ∧
    ((∃ u ∈ s.users, u.id = userId) → (title = "" ∨ 200 < title.length) →
      createPost s userId title content tags now =
        (.error "Title required and must be under 200 characters", s)) ∧
    ((∃ u ∈ s.users, u.id = userId) → ¬ (title = "" ∨ 200 < title.length) →
      (content = "" ∨ 5000 < content.length) →
      createPost s userId title content tags now =
        (.error "Content required and must be under 5000 characters", s)) ∧
    ((∃ u ∈ s.users, u.id = userId) → ¬ (title = "" ∨ 200 < title.length) →
      ¬ (content = "" ∨ 5000 < content.length) →
      createPost s userId title content tags now =
        (.ok { id := s.posts.length + 1, userId := userId, title := title, content := content,
               tags := tags, createdAt := now, likes := 0, published := true },
         { s with posts := s.posts ++
            [{ id := s.posts.length + 1, userId := userId, title := title, content := content,
               tags := tags, createdAt := now, likes := 0, published := true }] })) := by
  refine ⟨?_, ?_, ?_, ?_⟩
  · intro h
    have hfind : s.users.find? (fun u => u.id == userId) = none := by
      rw [List.find?_eq_none]
      intro u hu
      simpa using h u hu
    rw [createPost, hfind]
  · intro h htitle
    obtain ⟨v, hv⟩ := find?_isSome_of_exists (fun u => u.id == userId) s.users
      (by obtain ⟨u, hu, hid⟩ := h; exact ⟨u, hu, by simpa using hid⟩)
    rw [createPost, hv]
    simp only [if_pos htitle]
  · intro h htitle hcontent
    obtain ⟨v, hv⟩ := find?_isSome_of_exists (fun u => u.id == userId) s.users
      (by obtain ⟨u, hu, hid⟩ := h; exact ⟨u, hu, by simpa using hid⟩)
    rw [createPost, hv]
    simp only [if_neg htitle, if_pos hcontent]
  · intro h htitle hcontent
    obtain ⟨v, hv⟩ := find?_isSome_of_exists (fun u => u.id == userId) s.users
      (by obtain ⟨u, hu, hid⟩ := h; exact ⟨u, hu, by simpa using hid⟩)
    rw [createPost, hv]
    simp only [if_neg htitle, if_neg hcontent]

theorem createPost_spec_witness :
    createPost state0 1 "Hi" "World" [] "t1" = (.error "User not found", state0) ∧
    createPost state1 1 "" "World" [] "t1" =
      (.error "Title required and must be under 200 characters", state1) ∧
    createPost state1 1 "Hi" "" [] "t1" =
      (.error "Content required and must be under 5000 characters", state1) ∧
    createPost state1 1 "Hi" "World" ["news"] "t1" =
      (.ok { id := 1, userId := 1, title := "Hi", content := "World", tags := ["news"],
             createdAt := "t1", likes := 0, published := true },
       { state1 with posts := state1.posts ++
          [{ id := 1, userId := 1, title := "Hi", content := "World", tags := ["news"],
             createdAt := "t1", likes := 0, published := true }] }) :=
  ⟨(createPost_spec state0 1 "Hi" "World" [] "t1").1 (by decide),
   (createPost_spec state1 1 "" "World" [] "t1").2.1 (by decide) (by decide),
   (createPost_spec state1 1 "Hi" "" [] "t1").2.2.1 (by decide) (by decide) (by decide),
   (createPost_spec state1 1 "Hi" "World" ["news"] "t1").2.2.2
     (by decide) (by decide) (by decide)⟩

/-- C5: `searchPosts` throws when the keyword is shorter than 3 characters;
otherwise it returns exactly the first matches of the case-insensitive
substring test on title, content or some tag, in original insertion order:
the result followed by the matches beyond `maxResults` is the full match
list (so it is the `slice(0, maxResults)` of the matches), its length is
the minimum of `maxResults` and the number of matches, it is a sublist of
the post list, every member matches, and no match is dropped when the
truncation did not kick in. -/
theorem searchPosts_spec (s : State) (keyword : String) (maxResults : Nat) :
    (keyword.length < 3 →
      searchPosts s keyword maxResults =
        (.error "Search keyword must be at least 3 characters", s)) ∧
    (3 ≤ keyword.length →
      ∃ results, searchPosts s keyword maxResults = (.ok results, s) ∧
        results ++ (s.posts.filter (postMatches keyword.toLower)).drop maxResults =
          s.posts.filter (postMatches keyword.toLower) ∧
        results.length = min maxResults (s.posts.filter (postMatches keyword.toLower)).length ∧
        List.Sublist results s.posts ∧
        results.length ≤ maxResults ∧
        (∀ p ∈ results, postMatches keyword.toLower p = true) ∧
        (results.length < maxResults →
          ∀ p ∈ s.posts, postMatches keyword.toLower p = true → p ∈ results)) := by
  constructor
  · intro h
    rw [searchPosts, if_pos (Or.inr h)]
  · intro h
    have hguard : ¬ (keyword = "" ∨ keyword.length < 3) := by
      rintro (rfl | hlt)
      · exact absurd h (by decide)
      · omega
    refine ⟨(s.posts.filter (postMatches keyword.toLower)).take maxResults,
      ?_, ?_, ?_, ?_, ?_, ?_, ?_⟩
    · rw [searchPosts, if_neg hguard]
    · exact List.take_append_drop _ _
    · exact List.length_take _ _
    · exact (List.take_sublist _ _).trans (List.filter_sublist _)
    · exact List.length_take_le _ _
    · intro p hp
      exact (List.mem_filter.mp (List.mem_of_mem_take hp)).2
    · intro hlen p hp hmatch
      have hfull : (s.posts.filter (postMatches keyword.toLower)).take maxResults
          = s.posts.filter (postMatches keyword.toLower) := by
        apply List.take_of_length_le
        rw [List.length_take] at hlen
        omega
      rw [hfull]
      exact List.mem_filter.mpr ⟨hp, hmatch⟩

theorem searchPosts_spec_witness :
    ∃ results, searchPosts state2 "WOR" 10 = (.ok results, state2) ∧
      results ++ (state2.posts.filter (postMatches "WOR".toLower)).drop 10 =
        state2.posts.filter (postMatches "WOR".toLower) ∧
      results.length = min 10 (state2.posts.filter (postMatches "WOR".toLower)).length ∧
      List.Sublist results state2.posts ∧
      results.length ≤ 10 ∧
      (∀ p ∈ results, postMatches "WOR".toLower p = true) ∧
      (results.length < 10 →
        ∀ p ∈ state2.posts, postMatches "WOR".toLower p = true → p ∈ results) :=
  (searchPosts_spec state2 "WOR" 10).2 (by decide)

/-- C8: `getUserStats` on a user with zero posts returns `totalPosts = 0`,
`totalLikes = 0`, `averageLikesPerPost = 0` and `mostPopularPost = null`;
on a nonexistent user it fails with "User not found". -/
theorem getUserStats_zero_posts (s : State) (userId : Nat) :
    ((∀ u ∈ s.users, u.id ≠ userId) →
      getUserStats s userId = (.error "User not found", s)) ∧
    (∀ u, s.users.find? (fun v => v.id == userId) = some u →
      (∀ p ∈ s.posts, p.userId ≠ userId) →
      getUserStats s userId =
        (.ok { userId := userId, userName := u.name, totalPosts := 0, totalLikes := 0,
               averageLikesPerPost := 0, mostPopularPost := none }, s)) := by
  constructor
  · intro h
    have hfind : s.users.find? (fun u => u.id == userId) = none := by
      rw [List.find?_eq_none]
      intro u hu
      simpa using h u hu
    rw [getUserStats, hfind]
  · intro u hu hposts
    have hfilter : s.posts.filter (fun p => p.userId == userId) = [] := by
      rw [List.filter_eq_nil_iff]
      intro p hp
      simpa using hposts p hp
    rw [getUserStats, hu]
    simp [hfilter, mostPopular]

theorem getUserStats_zero_posts_witness :
    getUserStats state2 2 = (.error "User not found", state2) ∧
    getUserStats state1 1 =
      (.ok { userId := 1, userName := "Al", totalPosts := 0, totalLikes := 0,
             averageLikesPerPost := 0, mostPopularPost := none }, state1) :=
  ⟨(getUserStats_zero_posts state2 2).1 (by decide),
   (getUserStats_zero_posts state1 1).2
     { id := 1, name := "Al", email := "a@b.com", password := hashPassword "password1",
       createdAt := "t0", isActive := true } (by decide) (by decide)⟩

/-- C2: `deleteUser(id)` returns `true` exactly when a user with that id
existed (`false` otherwise); on success it removes the first user with
that id and every post whose owner id matches; and `getUserPosts(id)` is
empty in the state after `deleteUser(id)` (given the store invariant that
every post's owner exists, which all reachable states satisfy — theorem
`reachable_owner_invariant`). -/
theorem deleteUser_spec (s : State) (userId : Nat)
    (hinv : ∀ p ∈ s.posts, ∃ u ∈ s.users, u.id = p.userId) :
    ((deleteUser s userId).1 = true ↔ ∃ u ∈ s.users, u.id = userId) ∧
    ((deleteUser s userId).1 = true →
      (∃ l₁ u l₂, s.users = l₁ ++ u :: l₂ ∧ u.id = userId ∧ (∀ v ∈ l₁, v.id ≠ userId) ∧
        (deleteUser s userId).2.users = l₁ ++ l₂) ∧
      (deleteUser s userId).2.posts = s.posts.filter (fun p => !(p.userId == userId))) ∧
    getUserPosts (deleteUser s userId).2 userId {} = [] := by
  have hgup : ∀ s' : State, getUserPosts s' userId {} =
      s'.posts.filter (fun p => p.userId == userId) := by
    intro s'
    rfl
  cases hrem : removeFirst (fun u => u.id == userId) s.users with
  | none =>
    have hnone : ∀ u ∈ s.users, u.id ≠ userId := by
      intro u hu
      have := (removeFirst_eq_none_iff _ _).mp hrem u hu
      simpa using this
    refine ⟨?_, ?_, ?_⟩
    · simp only [deleteUser, hrem]
      constructor
      · intro h; cases h
      · rintro ⟨u, hu, hid⟩; exact absurd hid (hnone u hu)
    · intro h
      simp only [deleteUser, hrem] at h
      cases h
    · simp only [deleteUser, hrem, hgup]
      rw [List.filter_eq_nil_iff]
      intro p hp
      obtain ⟨u, hu, hid⟩ := hinv p hp
      have := hnone u hu
      simp only [beq_iff_eq]
      omega
  | some users' =>
    obtain ⟨l₁, u, l₂, hdec, hnone, hu, hrest⟩ := removeFirst_some_decomp _ _ _ hrem
    refine ⟨?_, ?_, ?_⟩
    · simp only [deleteUser, hrem]
      refine ⟨fun _ => ⟨u, ?_, by simpa using hu⟩, fun _ => trivial⟩
      rw [hdec]
      simp
    · intro _
      refine ⟨⟨l₁, u, l₂, hdec, by simpa using hu, ?_, ?_⟩, ?_⟩
      · intro v hv
        have := hnone v hv
        simpa using this
      · simp only [deleteUser, hrem, hrest]
      · simp only [deleteUser, hrem]
    · simp only [deleteUser, hrem, hgup]
      rw [List.filter_filter, List.filter_eq_nil_iff]
      intro p _
      cases h : p.userId == userId <;> simp [h]

theorem deleteUser_spec_witness :
    ((deleteUser state2 1).1 = true) ∧
    ((deleteUser state2 1).2.posts = state2.posts.filter (fun p => !(p.userId == 1))) ∧
    getUserPosts (deleteUser state2 1).2 1 {} = [] :=
  ⟨((deleteUser_spec state2 1 (by decide)).1).mpr (by decide),
   ((deleteUser_spec state2 1 (by decide)).2.1 (by decide)).2,
   (deleteUser_spec state2 1 (by decide)).2.2⟩

/-- C6: `updateUser` returns the `null` sentinel (and leaves the state
unchanged) when no user with `userId` exists; otherwise it rewrites the
first matching user through `applyUpdates`, leaves everything else alone,
and returns the updated redacted view.  `applyUpdates` touches only
`name`, `email` and `isActive`, each only when present in `updates`
(`id`, `password` and `createdAt` are never modified). -/
theorem updateUser_spec (s : State) (userId : Nat) (updates : UserUpdates) :
    ((∀ u ∈ s.users, u.id ≠ userId) → updateUser s userId updates = (none, s)) ∧
    ((∃ u ∈ s.users, u.id = userId) →
      ∃ l₁ u l₂, s.users = l₁ ++ u :: l₂ ∧ u.id = userId ∧ (∀ v ∈ l₁, v.id ≠ userId) ∧
        (updateUser s userId updates).2.users = l₁ ++ applyUpdates updates u :: l₂ ∧
        (updateUser s userId updates).2.posts = s.posts ∧
        (updateUser s userId updates).1 =
          some { id := (applyUpdates updates u).id, name := (applyUpdates updates u).name,
                 email := (applyUpdates updates u).email,
                 isActive := (applyUpdates updates u).isActive }) ∧
    (∀ u, (applyUpdates updates u).id = u.id ∧
      (applyUpdates updates u).password = u.password ∧
      (applyUpdates updates u).createdAt = u.createdAt ∧
      (updates.name = none → (applyUpdates updates u).name = u.name) ∧
      (updates.email = none → (applyUpdates updates u).email = u.email) ∧
      (updates.isActive = none → (applyUpdates updates u).isActive = u.isActive) ∧
      (∀ b, updates.isActive = some b → (applyUpdates updates u).isActive = b)) := by
  refine ⟨?_, ?_, ?_⟩
  · intro h
    have hfind : s.users.find? (fun u => u.id == userId) = none := by
      rw [List.find?_eq_none]
      intro u hu
      simpa using h u hu
    rw [updateUser, hfind]
  · intro h
    obtain ⟨u, hu⟩ := find?_isSome_of_exists (fun u => u.id == userId) s.users
      (by obtain ⟨v, hv, hid⟩ := h; exact ⟨v, hv, by simpa using hid⟩)
    obtain ⟨l₁, l₂, hdec, hnone, hpu, hupd⟩ :=
      find?_some_updateFirst (fun u => u.id == userId) (applyUpdates updates) s.users u hu
    refine ⟨l₁, u, l₂, hdec, by simpa using hpu, ?_, ?_, ?_, ?_⟩
    · intro v hv
      simpa using hnone v hv
    · simp only [updateUser, hu, hupd]
    · simp only [updateUser, hu]
    · simp only [updateUser, hu]
  · intro u
    rcases updates with ⟨n, e, a⟩
    refine ⟨?_, ?_, ?_, ?_, ?_, ?_, ?_⟩ <;>
      cases n <;> cases e <;> cases a <;>
        simp [applyUpdates] <;> split_ifs <;> simp_all

theorem updateUser_spec_witness :
    (updateUser state1 5 { name := some "Bob" } = (none, state1)) ∧
    (∃ l₁ u l₂, state1.users = l₁ ++ u :: l₂ ∧ u.id = 1 ∧ (∀ v ∈ l₁, v.id ≠ 1) ∧
      (updateUser state1 1 { name := some "Bob" }).2.users =
        l₁ ++ applyUpdates { name := some "Bob" } u :: l₂ ∧
      (updateUser state1 1 { name := some "Bob" }).2.posts = state1.posts ∧
      (updateUser state1 1 { name := some "Bob" }).1 =
        some { id := (applyUpdates { name := some "Bob" } u).id,
               name := (applyUpdates { name := some "Bob" } u).name,
               email := (applyUpdates { name := some "Bob" } u).email,
               isActive := (applyUpdates { name := some "Bob" } u).isActive }) :=
  ⟨(updateUser_spec state1 5 { name := some "Bob" }).1 (by decide),
   (updateUser_spec state1 1 { name := some "Bob" }).2.1 (by decide)⟩

/-- The conjunction of the three per-post conditions of `getUserPosts`
(tag stage, published stage, owner stage), in composition order. -/
def userPostsPred (userId : Nat) (pub : Option Bool) (tag : Option String)
    (p : Post) : Bool :=
  (match tag with
    | some t => if t = "" then true else p.tags.contains t
    | none => true) &&
  ((match pub with
    | some b => p.published == b
    | none => true) &&
   (p.userId == userId))

theorem userPostsPred_true_iff (userId : Nat) (pub : Option Bool)
    (tag : Option String) (p : Post) :
    userPostsPred userId pub tag p = true ↔
      p.userId = userId ∧ (∀ b, pub = some b → p.published = b) ∧
      (∀ t, tag = some t → t ≠ "" → p.tags.contains t = true) := by
  cases pub with
  | none =>
    cases tag with
    | none => simp [userPostsPred]
    | some t =>
      by_cases ht : t = ""
      · simp [userPostsPred, ht]
      · simp [userPostsPred, ht]
        tauto
  | some b =>
    cases tag with
    | none =>
      simp [userPostsPred]
      tauto
    | some t =>
      by_cases ht : t = "" <;> simp [userPostsPred, ht] <;> tauto

/-- Normal form of `getUserPosts` without a limit: a single filter whose
predicate is the conjunction of the three stage predicates, composed in
the order of the source. -/
theorem getUserPosts_unlimited (s : State) (userId : Nat) (pub : Option Bool)
    (tag : Option String) :
    getUserPosts s userId { published := pub, tag := tag, limit := none } =
      s.posts.filter (userPostsPred userId pub tag) := by
  cases pub with
  | none =>
    cases tag with
    | none =>
      simp only [getUserPosts]
      exact List.filter_congr (fun p _ => by simp [userPostsPred])
    | some t =>
      by_cases ht : t = "" <;>
        [simp only [getUserPosts, if_pos ht];
         simp only [getUserPosts, if_neg ht, List.filter_filter]] <;>
        exact List.filter_congr (fun p _ => by simp [userPostsPred, ht])
  | some b =>
    cases tag with
    | none =>
      simp only [getUserPosts, List.filter_filter]
      exact List.filter_congr (fun p _ => by simp [userPostsPred])
    | some t =>
      by_cases ht : t = "" <;>
        [simp only [getUserPosts, if_pos ht, List.filter_filter];
         simp only [getUserPosts, if_neg ht, List.filter_filter]] <;>
        exact List.filter_congr (fun p _ => by simp [userPostsPred, ht])

/-- The limit stage of `getUserPosts` acts on the result of the unlimited
pipeline: it truncates when positive and is ignored otherwise. -/
theorem getUserPosts_limit (s : State) (userId : Nat) (pub : Option Bool)
    (tag : Option String) (lim : Option Int) :
    getUserPosts s userId { published := pub, tag := tag, limit := lim } =
      (match lim with
        | some n =>
          if n > 0 then
            (getUserPosts s userId { published := pub, tag := tag, limit := none }).take n.toNat
          else getUserPosts s userId { published := pub, tag := tag, limit := none }
        | none => getUserPosts s userId { published := pub, tag := tag, limit := none }) := by
  cases lim <;> rfl

/-- C7: `getUserPosts` returns exactly the posts owned by `userId`, then
filtered by the optional published flag and tag membership (the unlimited
result equals the single filter by `userPostsPred`, whose truth is exactly
the claimed conditions), then truncated last by the result count limit:
with a positive limit the result is exactly the `take` of the unlimited
result, and otherwise it is exactly the unlimited result.  Consequently
the result is a sublist of the post list (insertion order), every member
satisfies the claimed conditions, a positive limit bounds the length, and
without a limit no qualifying post is dropped. -/
theorem getUserPosts_spec (s : State) (userId : Nat) (options : PostOptions) :
    (getUserPosts s userId { options with limit := none } =
      s.posts.filter (userPostsPred userId options.published options.tag)) ∧
    (∀ p, userPostsPred userId options.published options.tag p = true ↔
      p.userId = userId ∧ (∀ b, options.published = some b → p.published = b) ∧
      (∀ t, options.tag = some t → t ≠ "" → p.tags.contains t = true)) ∧
    (∀ n, options.limit = some n → 0 < n →
      getUserPosts s userId options =
        (getUserPosts s userId { options with limit := none }).take n.toNat) ∧
    (options.limit = none →
      getUserPosts s userId options = getUserPosts s userId { options with limit := none }) ∧
    (∀ n, options.limit = some n → ¬ 0 < n →
      getUserPosts s userId options = getUserPosts s userId { options with limit := none }) ∧
    List.Sublist (getUserPosts s userId options) s.posts ∧
    (∀ p ∈ getUserPosts s userId options, p.userId = userId ∧
      (∀ b, options.published = some b → p.published = b) ∧
      (∀ t, options.tag = some t → t ≠ "" → p.tags.contains t = true)) ∧
    (∀ n, options.limit = some n → 0 < n →
      (getUserPosts s userId options).length ≤ n.toNat) ∧
    (options.limit = none → ∀ p ∈ s.posts, p.userId = userId →
      (∀ b, options.published = some b → p.published = b) →
      (∀ t, options.tag = some t → t ≠ "" → p.tags.contains t = true) →
      p ∈ getUserPosts s userId options) := by
  rcases options with ⟨pub, tag, lim⟩
  have hunl := getUserPosts_unlimited s userId pub tag
  have hlim := getUserPosts_limit s userId pub tag lim
  have hsubunl : List.Sublist
      (getUserPosts s userId { published := pub, tag := tag, limit := none }) s.posts := by
    rw [hunl]
    exact List.filter_sublist _
  refine ⟨hunl, fun p => userPostsPred_true_iff userId pub tag p,
    ?_, ?_, ?_, ?_, ?_, ?_, ?_⟩
  · intro n hn hpos
    subst hn
    rw [hlim]
    dsimp only
    rw [if_pos hpos]
  · intro hn
    subst hn
    rw [hlim]
  · intro n hn hnpos
    subst hn
    rw [hlim]
    dsimp only
    rw [if_neg hnpos]
  · rw [hlim]
    cases lim with
    | none => exact hsubunl
    | some n =>
      dsimp only
      by_cases hn : n > 0
      · rw [if_pos hn]
        exact (List.take_sublist _ _).trans hsubunl
      · rw [if_neg hn]
        exact hsubunl
  · intro p hp
    rw [hlim] at hp
    have hpu : p ∈ getUserPosts s userId { published := pub, tag := tag, limit := none } := by
      cases lim with
      | none => exact hp
      | some n =>
        dsimp only at hp
        by_cases hn : n > 0
        · rw [if_pos hn] at hp
          exact List.mem_of_mem_take hp
        · rw [if_neg hn] at hp
          exact hp
    rw [hunl] at hpu
    exact (userPostsPred_true_iff userId pub tag p).mp (List.mem_filter.mp hpu).2
  · intro n hn hpos
    subst hn
    rw [hlim]
    dsimp only
    rw [if_pos hpos]
    exact List.length_take_le _ _
  · intro hnone p hp hid hpub htag
    subst hnone
    rw [hlim, hunl]
    exact List.mem_filter.mpr
      ⟨hp, (userPostsPred_true_iff userId pub tag p).mpr ⟨hid, hpub, htag⟩⟩

theorem getUserPosts_spec_witness :
    (getUserPosts state2 1 { published := some true, tag := some "news", limit := none } =
      state2.posts.filter (userPostsPred 1 (some true) (some "news"))) ∧
    (getUserPosts state2 1 { published := some true, tag := some "news", limit := some 1 } =
      (getUserPosts state2 1 { published := some true, tag := some "news", limit := none }).take
        (1 : Int).toNat) ∧
    (getUserPosts state2 1 { published := some true, tag := some "news", limit := some 1 }).length ≤
      (1 : Int).toNat :=
  ⟨(getUserPosts_spec state2 1
      { published := some true, tag := some "news", limit := some 1 }).1,
   (getUserPosts_spec state2 1
      { published := some true, tag := some "news", limit := some 1 }).2.2.1 1 rfl (by norm_num),
   (getUserPosts_spec state2 1
      { published := some true, tag := some "news", limit := some 1 }).2.2.2.2.2.2.2.1
      1 rfl (by norm_num)⟩

/-- C1 as stated is false: after `createUser("Al", …)` and
`createPost(1, "Hi", "World", ["news"])` the user with id 1 exists and has
exactly one post, yet `getUserStats(1).mostPopularPost` is `null`, because
the reduce step `post.likes > (max?.likes || 0)` never fires while every
like count is zero. -/
theorem getUserStats_mostPopular_counterexample :
    (getUserById state2 1).isSome = true ∧
    (getUserStats state2 1).1.toOption.map Stats.totalPosts = some 1 ∧
    (getUserStats state2 1).1.toOption.map Stats.mostPopularPost = some none := by
  decide

/-- C1 (amended): for every existing user, `getUserStats` returns as
`mostPopularPost` the most-liked post among that user's posts, ties
resolved in favor of the first encountered during the scan — provided some
post of the user has a nonzero like count; when every post of the user has
zero likes (in particular when the user has posts but none was ever
liked), `mostPopularPost` is `null` instead. -/
theorem getUserStats_mostPopular (s : State) (userId : Nat)
    (h : ∃ u ∈ s.users, u.id = userId) :
    ∃ stats, (getUserStats s userId).1 = .ok stats ∧
      (stats.mostPopularPost = none →
        ∀ p ∈ s.posts.filter (fun p => p.userId == userId), p.likes = 0) ∧
      (∀ v, stats.mostPopularPost = some v →
        ∃ l₁ m l₂, s.posts.filter (fun p => p.userId == userId) = l₁ ++ m :: l₂ ∧
          v = { id := m.id, title := m.title, likes := m.likes } ∧ 0 < m.likes ∧
          (∀ p ∈ s.posts.filter (fun p => p.userId == userId), p.likes ≤ m.likes) ∧
          (∀ p ∈ l₁, p.likes < m.likes)) := by
  obtain ⟨u, hu⟩ := find?_isSome_of_exists (fun u => u.id == userId) s.users
    (by obtain ⟨v, hv, hid⟩ := h; exact ⟨v, hv, by simpa using hid⟩)
  rw [getUserStats, hu]
  refine ⟨_, rfl, ?_, ?_⟩
  · intro hnone
    simp only [Option.map_eq_none'] at hnone
    exact mostPopular_eq_none _ hnone
  · intro v hv
    simp only [Option.map_eq_some'] at hv
    obtain ⟨m, hm, hview⟩ := hv
    obtain ⟨hpos, l₁, l₂, hdec, hall, hfirst⟩ := mostPopular_eq_some _ m hm
    exact ⟨l₁, m, l₂, hdec, hview.symm, hpos, hall, hfirst⟩

theorem getUserStats_mostPopular_witness :
    ∃ stats, (getUserStats state3 1).1 = .ok stats ∧
      (stats.mostPopularPost = none →
        ∀ p ∈ state3.posts.filter (fun p => p.userId == 1), p.likes = 0) ∧
      (∀ v, stats.mostPopularPost = some v →
        ∃ l₁ m l₂, state3.posts.filter (fun p => p.userId == 1) = l₁ ++ m :: l₂ ∧
          v = { id := m.id, title := m.title, likes := m.likes } ∧ 0 < m.likes ∧
          (∀ p ∈ state3.posts.filter (fun p => p.userId == 1), p.likes ≤ m.likes) ∧
          (∀ p ∈ l₁, p.likes < m.likes)) :=
  getUserStats_mostPopular state3 1 (by decide)

/-- C10: whenever an operation fails — `createUser` on a validation
failure, `createPost` on a missing user or a bound violation, `searchPosts`
on a too-short keyword, `getUserStats` on a missing user — the state (both
the users and the posts collection) is left completely unchanged. -/
theorem error_atomicity (s : State) :
    (∀ name email password now e,
      (createUser s name email password now).1 = .error e →
      (createUser s name email password now).2 = s) ∧
    (∀ userId title content tags now e,
      (createPost s userId title content tags now).1 = .error e →
      (createPost s userId title content tags now).2 = s) ∧
    (∀ keyword maxResults e,
      (searchPosts s keyword maxResults).1 = .error e →
      (searchPosts s keyword maxResults).2 = s) ∧
    (∀ userId e,
      (getUserStats s userId).1 = .error e →
      (getUserStats s userId).2 = s) := by
  refine ⟨?_, ?_, ?_, ?_⟩
  · intro name email password now e h
    rw [createUser] at h ⊢
    split_ifs at h ⊢ <;> rfl
  · intro userId title content tags now e h
    rw [createPost] at h ⊢
    cases hf : s.users.find? (fun u => u.id == userId)
    · rfl
    · rw [hf] at h
      dsimp only at h ⊢
      split_ifs at h ⊢ <;> rfl
  · intro keyword maxResults e h
    rw [searchPosts]
    split_ifs <;> rfl
  · intro userId e h
    rw [getUserStats]
    cases hf : s.users.find? (fun u => u.id == userId) <;> rfl

theorem error_atomicity_witness :
    (createUser state1 "A" "a@b.com" "password1" "t0").2 = state1 ∧
    (createPost state1 1 "" "World" [] "t1").2 = state1 ∧
    (searchPosts state1 "hi" 10).2 = state1 ∧
    (getUserStats state1 7).2 = state1 :=
  ⟨(error_atomicity state1).1 "A" "a@b.com" "password1" "t0"
      "Name must be at least 2 characters" (by rfl),
   (error_atomicity state1).2.1 1 "" "World" [] "t1"
      "Title required and must be under 200 characters" (by rfl),
   (error_atomicity state1).2.2.1 "hi" 10
      "Search keyword must be at least 3 characters" (by rfl),
   (error_atomicity state1).2.2.2 7 "User not found" (by rfl)⟩

end Api
